import Mathlib

/-!
# Verification of the promise-based modal dialog host

A shallow embedding of the modal host orchestrator (`src/modal/ModalHost.tsx`),
the focus-trap keydown handler, the overlay scroll-containment handlers, the
global access shim (`openWithRender` / `setExternalOpen`) and the form content
(`FormModal`).

Modelling conventions:
* React `useState` / `useRef` cells become fields of `HostState`; a state
  setter is modelled as taking effect immediately.
* A JS `Promise` created by `open` becomes one slot in `HostState.futures`;
  the slot is `none` while the promise is pending and `some fv` once
  fulfilled with `fv`.  Per Promise semantics, calling the executor's
  `resolve` on an already-fulfilled promise is a no-op: `fulfill` below
  encodes exactly that.
* JS `null` is `Option.none`; a future's value `T | null` is `Option V`.
* Each handler returns, besides the successor state, an ordered trace of
  `Effect`s so that ordering properties (fulfil-before-unmount, microtask
  scheduling, intermediate visual states) are visible.
* `queueMicrotask(...)` is the `Effect.scheduleRestoreMicrotask` trace entry;
  running the queued microtask is the separate step `runRestoreMicrotask`.
-/

set_option autoImplicit false

namespace ModalSpec

/-- Visual lifecycle state; `opened` embeds the source's `"open"` literal
(`open` is a Lean keyword). -/
inductive VisualState where
  | opened
  | closed
  | unmounted
deriving DecidableEq, Repr

/-- Observable actions a handler performs, in program order. -/
inductive Effect (V : Type) where
  /-- the call `pending.resolvePromise(v)` (line 139 / 160). -/
  | callResolvePromise (id : Nat) (v : Option V)
  /-- a `setVisualState(vs)` call. -/
  | setVisual (vs : VisualState)
  /-- a `setIsMounted(b)` call. -/
  | setMounted (b : Bool)
  /-- the `setPending(null)` call. -/
  | clearPending
  /-- the `queueMicrotask(...)` call scheduling focus restoration. -/
  | scheduleRestoreMicrotask
  /-- an `e.preventDefault()` call. -/
  | preventDefault
  /-- an actual focus move (`el.focus()`), target by element id. -/
  | focusMove (target : Option Nat)
deriving DecidableEq, Repr

/-- State of one `ModalProvider` instance.  `futures` has one slot per request
ever opened (in order), `pending` holds the index of the current
`PendingRequest`'s future, mirroring `pending.resolvePromise`. -/
structure HostState (V : Type) where
  futures : List (Option (Option V))
  pending : Option Nat
  isMounted : Bool
  visualState : VisualState
  prevFocus : Option Nat
  restoreFocusOnClose : Bool
  prefersReducedMotion : Bool
deriving DecidableEq, Repr

variable {V : Type}

/-- Fulfil future `id` with `v` unless it is already fulfilled (JS Promise
at-most-once fulfilment semantics of `resolvePromise`). -/
def fulfill (s : HostState V) (id : Nat) (v : Option V) : HostState V :=
  match s.futures[id]? with
  | some none => { s with futures := s.futures.set id (some v) }
  | _ => s

/-- Embeds `resolve` (ModalHost.tsx lines 136–156): bail out when no request is
pending; otherwise fulfil the promise, mark restoration owed, transition to
`closed`, and — when reduced motion is preferred — run the unmount path
synchronously, scheduling focus restoration on a microtask. -/
def resolve (s : HostState V) (value : Option V) : HostState V × List (Effect V) :=
  match s.pending with
  | none => (s, [])
  | some id =>
    let s1 := fulfill s id value
    let s2 := { s1 with restoreFocusOnClose := true, visualState := VisualState.closed }
    if s2.prefersReducedMotion then
      let s3 := { s2 with isMounted := false, visualState := VisualState.unmounted,
                          pending := none }
      if s3.restoreFocusOnClose then
        (s3, [Effect.callResolvePromise id value, Effect.setVisual VisualState.closed,
              Effect.setMounted false, Effect.setVisual VisualState.unmounted,
              Effect.clearPending, Effect.scheduleRestoreMicrotask])
      else
        (s3, [Effect.callResolvePromise id value, Effect.setVisual VisualState.closed,
              Effect.setMounted false, Effect.setVisual VisualState.unmounted,
              Effect.clearPending])
    else
      (s2, [Effect.callResolvePromise id value, Effect.setVisual VisualState.closed])

/-- Embeds `cancel` (lines 158–174): textually the same body as `resolve` with the
promise fulfilled with `null` (here `none`). -/
def cancel (s : HostState V) : HostState V × List (Effect V) :=
  match s.pending with
  | none => (s, [])
  | some id =>
    let s1 := fulfill s id none
    let s2 := { s1 with restoreFocusOnClose := true, visualState := VisualState.closed }
    if s2.prefersReducedMotion then
      let s3 := { s2 with isMounted := false, visualState := VisualState.unmounted,
                          pending := none }
      if s3.restoreFocusOnClose then
        (s3, [Effect.callResolvePromise id none, Effect.setVisual VisualState.closed,
              Effect.setMounted false, Effect.setVisual VisualState.unmounted,
              Effect.clearPending, Effect.scheduleRestoreMicrotask])
      else
        (s3, [Effect.callResolvePromise id none, Effect.setVisual VisualState.closed,
              Effect.setMounted false, Effect.setVisual VisualState.unmounted,
              Effect.clearPending])
    else
      (s2, [Effect.callResolvePromise id none, Effect.setVisual VisualState.closed])

/-- Embeds `open` (lines 61–72): capture the active element, create a fresh pending
promise, mount and transition to `"open"`.  Named `openModal` because `open`
is a Lean keyword. -/
def openModal (s : HostState V) (activeElem : Option Nat) : HostState V × List (Effect V) :=
  ({ s with prevFocus := activeElem,
            futures := s.futures ++ [none],
            pending := some s.futures.length,
            isMounted := true,
            visualState := VisualState.opened },
   [Effect.setMounted true, Effect.setVisual VisualState.opened])

/-- Embeds `handleOverlayAnimationEnd` (lines 213–226): ignore events bubbled from
descendants (`e.target !== e.currentTarget`); when the overlay's own
animation ends while `closed`, unmount, clear the request and schedule the
owed focus restoration on a microtask. -/
def handleOverlayAnimationEnd (s : HostState V) (targetIsOverlay : Bool) :
    HostState V × List (Effect V) :=
  if !targetIsOverlay then (s, [])
  else if s.visualState = VisualState.closed then
    let s1 := { s with isMounted := false, visualState := VisualState.unmounted,
                       pending := none }
    if s1.restoreFocusOnClose then
      (s1, [Effect.setMounted false, Effect.setVisual VisualState.unmounted,
            Effect.clearPending, Effect.scheduleRestoreMicrotask])
    else
      (s1, [Effect.setMounted false, Effect.setVisual VisualState.unmounted,
            Effect.clearPending])
  else (s, [])

/-- Embeds `handleOverlayClick` (lines 128–130): cancel only when the click target is
exactly the overlay (`e.target === e.currentTarget`). -/
def handleOverlayClick (s : HostState V) (targetIsCurrentTarget : Bool) :
    HostState V × List (Effect V) :=
  if targetIsCurrentTarget then cancel s else (s, [])

/-- The Escape branch of `handleKeydown` (lines 89–94): `preventDefault`
then `cancel()`.  The Tab branch touches no host state and is modelled
separately by `handleTab`. -/
def handleKeydownHost (s : HostState V) (key : String) : HostState V × List (Effect V) :=
  if key == "Escape" || key == "Esc" then
    let r := cancel s
    (r.1, Effect.preventDefault :: r.2)
  else (s, [])

/-- Body of the microtask queued on close (lines 148–151 / 168–171 / 220–223):
`previousActiveElementRef.current?.focus?.()` then clear the owed flag. -/
def runRestoreMicrotask (s : HostState V) : HostState V × List (Effect V) :=
  ({ s with restoreFocusOnClose := false }, [Effect.focusMove s.prevFocus])

/-- The discrete UI events the host reacts to. -/
inductive Event (V : Type) where
  | openReq (activeElem : Option Nat)
  | resolveCall (v : Option V)
  | cancelCall
  | keydown (key : String)
  | overlayClick (targetIsCurrentTarget : Bool)
  | animationEnd (targetIsOverlay : Bool)
  | restoreMicrotask
  | motionPrefChange (b : Bool)

/-- Dispatch one event to its handler.  `motionPrefChange` embeds the
`matchMedia` change listener (lines 79–87). -/
def step (s : HostState V) : Event V → HostState V × List (Effect V)
  | Event.openReq a => openModal s a
  | Event.resolveCall v => resolve s v
  | Event.cancelCall => cancel s
  | Event.keydown k => handleKeydownHost s k
  | Event.overlayClick b => handleOverlayClick s b
  | Event.animationEnd b => handleOverlayAnimationEnd s b
  | Event.restoreMicrotask => runRestoreMicrotask s
  | Event.motionPrefChange b => ({ s with prefersReducedMotion := b }, [])

/-- The provider's initial state: no request, layer unmounted. -/
def initState (V : Type) : HostState V :=
  { futures := [], pending := none, isMounted := false,
    visualState := VisualState.unmounted, prevFocus := none,
    restoreFocusOnClose := false, prefersReducedMotion := false }

/-- The single-flight discipline of the spec: `open` is only issued while no
request is pending. -/
def allowed (s : HostState V) : Event V → Prop
  | Event.openReq _ => s.pending = none
  | _ => True

/-- States reachable by single-flight runs. -/
inductive Reachable : HostState V → Prop where
  | init : Reachable (initState V)
  | next {s : HostState V} (e : Event V) :
      Reachable s → allowed s e → Reachable (step s e).1

/-- The visual states a step passes through, in order: the state's current
one followed by every `setVisualState` call of the trace. -/
def visitedVisuals (s : HostState V) (t : List (Effect V)) : List VisualState :=
  s.visualState ::
    t.filterMap (fun e =>
      match e with
      | Effect.setVisual vs => some vs
      | _ => none)

/-- One edge of the lifecycle path `unmounted → open → closed → unmounted`
(staying put included). -/
def lifecycleEdge (a b : VisualState) : Prop :=
  a = b ∨
    (a = VisualState.unmounted ∧ b = VisualState.opened) ∨
    (a = VisualState.opened ∧ b = VisualState.closed) ∨
    (a = VisualState.closed ∧ b = VisualState.unmounted)

instance (a b : VisualState) : Decidable (lifecycleEdge a b) := by
  unfold lifecycleEdge; infer_instance

/-- Invariant: a `PendingRequest` exists exactly while the layer is not unmounted. -/
def pendingInv (s : HostState V) : Prop :=
  s.pending = none ↔ s.visualState = VisualState.unmounted

/- ### The global access shim (lines 25–36) -/

/-- Embeds `setExternalOpen` (lines 27–29): plain assignment to the module-level
registration slot. -/
def setExternalOpen (newReg _old : Option (HostState V)) : Option (HostState V) :=
  newReg

/-- Embeds `openWithRender` (lines 31–36): with no registered host, return the
rejected promise `Promise.reject(new Error("ModalProvider is not mounted"))`
(modelled as `Except.error`; the function is total, so nothing is thrown
synchronously); otherwise invoke the registered host's `open`.  The first
component is the registration slot after the call — it is never written. -/
def openWithRender (registered : Option (HostState V)) (activeElem : Option Nat) :
    Option (HostState V) × Except String (HostState V × List (Effect V)) :=
  match registered with
  | none => (registered, Except.error "ModalProvider is not mounted")
  | some s => (registered, Except.ok (openModal s activeElem))

/- ### Focus trap: the Tab branch of `handleKeydown` (lines 96–125) -/

/-- Element kinds distinguished by the tabbable query selector. -/
inductive Tag where
  | anchor
  | button
  | textarea
  | input
  | select
  | div
  | other
deriving DecidableEq, Repr

/-- The attributes of one descendant of the dialog container that the trap
inspects.  Elements are listed in document order. -/
structure DomElement where
  tag : Tag
  hasHref : Bool
  disabled : Bool
  ariaHidden : Bool
  hidden : Bool
  tabIndexAttr : Option Int
deriving DecidableEq, Repr

/-- The CSS selector of line 102:
`a[href], button:not([disabled]), textarea, input:not([disabled]), select,
[tabindex]:not([tabindex="-1"])`. -/
def matchesSelector (el : DomElement) : Bool :=
  (el.tag == Tag.anchor && el.hasHref) ||
  (el.tag == Tag.button && !el.disabled) ||
  el.tag == Tag.textarea ||
  (el.tag == Tag.input && !el.disabled) ||
  el.tag == Tag.select ||
  (el.tabIndexAttr.isSome && el.tabIndexAttr != some (-1))

/-- The DOM `tabIndex` property: the `tabindex` attribute when present,
otherwise `0` for interactive elements (`a[href]`, `button`, `textarea`,
`input`, `select`) and `-1` for the rest. -/
def tabIndexProp (el : DomElement) : Int :=
  match el.tabIndexAttr with
  | some n => n
  | none =>
    match el.tag with
    | Tag.anchor => if el.hasHref then 0 else -1
    | Tag.button => 0
    | Tag.textarea => 0
    | Tag.input => 0
    | Tag.select => 0
    | _ => -1

/-- The filter of lines 104–107:
`!el.hasAttribute("aria-hidden") && el.tabIndex !== -1 && !el.hidden`. -/
def passesFilter (el : DomElement) : Bool :=
  !el.ariaHidden && tabIndexProp el != -1 && !el.hidden

/-- Whether an element ends up in the `tabbables` array. -/
def isTabbable (el : DomElement) : Bool :=
  matchesSelector el && passesFilter el

/-- Indices (document order) of the container's tabbable descendants,
recomputed from the current contents on each call. -/
def tabbables (container : List DomElement) : List Nat :=
  (List.range container.length).filter fun i =>
    match container[i]? with
    | some el => isTabbable el
    | none => false

/-- What `document.activeElement` is when Tab is pressed: the container
itself, one of its descendants (by index), or something else. -/
inductive ActiveTarget where
  | container
  | element (i : Nat)
  | outside
deriving DecidableEq, Repr

/-- Outcome of the Tab branch: whether `preventDefault` ran and which
element (by index), if any, received a `.focus()` call. -/
structure TabResult where
  prevented : Bool
  focusTo : Option Nat
deriving DecidableEq, Repr

/-- The Tab branch of `handleKeydown` (lines 96–125): recompute `tabbables`;
if empty, `preventDefault` and stop; otherwise wrap forward from the last
element to the first, and backward from the first element (or the container)
to the last. -/
def handleTab (container : List DomElement) (shiftKey : Bool) (active : ActiveTarget) :
    TabResult :=
  match tabbables container with
  | [] => { prevented := true, focusTo := none }
  | f :: rest =>
    let l := (f :: rest).getLast (List.cons_ne_nil f rest)
    if !shiftKey && active == ActiveTarget.element l then
      { prevented := true, focusTo := some f }
    else if shiftKey && (active == ActiveTarget.element f || active == ActiveTarget.container) then
      { prevented := true, focusTo := some l }
    else
      { prevented := false, focusTo := none }

/- ### Overlay scroll containment (lines 183–201) -/

/-- The facts about a wheel / touch-move event target the handlers test:
whether it is a DOM node, and containment in the dialog (`dialogRef`) and in
the scrollable content region (`scrollContentRef`). -/
structure GestureTarget where
  isNode : Bool
  insideDialog : Bool
  insideScroll : Bool
deriving DecidableEq, Repr

/-- Embeds `isInsideDialog` (lines 183–185). -/
def isInsideDialog (t : GestureTarget) : Bool :=
  t.isNode && t.insideDialog

/-- Embeds `isInsideScrollContent` (lines 187–189). -/
def isInsideScrollContent (t : GestureTarget) : Bool :=
  t.isNode && t.insideScroll

/-- Embeds `handleWheelCapture` (lines 191–195); `true` means `preventDefault` ran. -/
def handleWheelCapture (t : GestureTarget) : Bool :=
  !isInsideDialog t || !isInsideScrollContent t

/-- Embeds `handleTouchMoveCapture` (lines 197–201); `true` means `preventDefault`
ran. -/
def handleTouchMoveCapture (t : GestureTarget) : Bool :=
  !isInsideDialog t || !isInsideScrollContent t

end ModalSpec

namespace FormSpec

open ModalSpec

/- ### The form content (`FormModal.tsx`) -/

/-- Whitespace as stripped by JS `String.prototype.trim` (code points
9–13, space, NBSP, BOM; the usual exotic spaces are omitted — no input in
this development contains them). -/
def isJsWhitespace (c : Char) : Bool :=
  c == ' ' || (9 ≤ c.toNat && c.toNat ≤ 13) || c.toNat == 160 || c.toNat == 65279

/-- JS `email.trim()`. -/
def jsTrim (s : String) : String :=
  String.mk (((s.data.dropWhile isJsWhitespace).reverse.dropWhile isJsWhitespace).reverse)

/-- After the matched `@` the regex needs `.+\..+`: one non-newline
character (consumed by `afterAt`), then — searching forward over non-newline
characters — a literal `.` followed by a non-newline character. -/
def dotTail : List Char → Bool
  | [] => false
  | c :: rest =>
    (c == '.' && (match rest with
      | d :: _ => d != '\n'
      | [] => false)) ||
    (c != '\n' && dotTail rest)

/-- Matches `^.+\..+` against the characters after the chosen `@`. -/
def afterAt : List Char → Bool
  | [] => false
  | c :: rest => c != '\n' && dotTail rest

/-- Searches for a `@` (preceded, at the caller, by at least one non-newline
character) whose tail matches `.+\..+`. -/
def atTail : List Char → Bool
  | [] => false
  | c :: rest => (c == '@' && afterAt rest) || (c != '\n' && atTail rest)

/-- Unanchored JS regex test `/.+@.+\..+/.test(s)`: some substring is a
non-empty non-newline run, `@`, another such run, `.`, a third such run. -/
def regexTest : List Char → Bool
  | [] => false
  | c :: rest => (c != '\n' && atTail rest) || regexTest rest

/-- Embeds `isValidEmail` (FormModal lines 23–25). -/
def isValidEmail (s : String) : Bool :=
  regexTest s.data

/-- The payload `{ email: string }` passed to `onResolve`. -/
structure FormResult where
  email : String
deriving DecidableEq, Repr

/-- What one `handleSubmit` run does: the inline error afterwards, whether
focus was sent back to the input, and the payload passed to `onResolve`
(none = the open future stays pending). -/
structure SubmitOutcome where
  error : Option String
  focusInput : Bool
  resolved : Option FormResult
deriving DecidableEq, Repr

/-- Embeds `handleSubmit` (FormModal lines 27–42): trim; empty → required-field
error and refocus; invalid format → format error and refocus; otherwise
clear the error and resolve with the trimmed email. -/
def handleSubmit (email : String) : SubmitOutcome :=
  let value := jsTrim email
  if value.length == 0 then
    { error := some "이메일을 입력해 주세요.", focusInput := true, resolved := none }
  else if !isValidEmail value then
    { error := some "올바른 이메일 형식을 입력해 주세요.", focusInput := true, resolved := none }
  else
    { error := none, focusInput := false, resolved := some { email := value } }

/-- Embeds `handleOpen` of `ModalFormPage.tsx` (lines 7–10): the awaiting caller
maps the fulfilment `res` to `res ? res.email : null`. -/
def handleOpen (res : Option FormResult) : Option String :=
  match res with
  | some r => some r.email
  | none => none

end FormSpec

open ModalSpec

/-! ### Sample inputs used to instantiate the theorems -/

/-- A host state with one freshly opened, unsettled request (future slot 0
pending), used to instantiate the theorems below. -/
def sampleOpenState : HostState Nat :=
  { futures := [none], pending := some 0, isMounted := true,
    visualState := VisualState.opened, prevFocus := some 7,
    restoreFocusOnClose := false, prefersReducedMotion := false }

/-- A copy of `sampleOpenState` with the reduced-motion preference on. -/
def sampleReducedState : HostState Nat :=
  { sampleOpenState with prefersReducedMotion := true }

/-- A host state carrying the form scenario's open request in slot 0. -/
def formHostState : HostState FormSpec.FormResult :=
  { futures := [none], pending := some 0, isMounted := true,
    visualState := VisualState.opened, prevFocus := some 1,
    restoreFocusOnClose := false, prefersReducedMotion := false }

/-- A dialog descendant refuting the broad exclusion clause of C3: an
enabled button carrying `tabindex="-2"` — a negative tab order that is not
exactly `-1`. -/
def negTabButton : DomElement :=
  { tag := Tag.button, hasHref := false, disabled := false, ariaHidden := false,
    hidden := false, tabIndexAttr := some (-2) }

/-- A dialog with two tabbable descendants (a button and an input), used to
instantiate the focus-trap theorem. -/
def sampleDialog : List DomElement :=
  [{ tag := Tag.button, hasHref := false, disabled := false, ariaHidden := false,
     hidden := false, tabIndexAttr := none },
   { tag := Tag.input, hasHref := false, disabled := false, ariaHidden := false,
     hidden := false, tabIndexAttr := none }]

namespace ModalSpec

variable {V : Type}

/-! ### Helper lemmas about the host handlers -/

@[simp] lemma fulfill_pending (s : HostState V) (id : Nat) (v : Option V) :
    (fulfill s id v).pending = s.pending := by
  unfold fulfill; split <;> rfl

@[simp] lemma fulfill_visualState (s : HostState V) (id : Nat) (v : Option V) :
    (fulfill s id v).visualState = s.visualState := by
  unfold fulfill; split <;> rfl

@[simp] lemma fulfill_isMounted (s : HostState V) (id : Nat) (v : Option V) :
    (fulfill s id v).isMounted = s.isMounted := by
  unfold fulfill; split <;> rfl

@[simp] lemma fulfill_prefers (s : HostState V) (id : Nat) (v : Option V) :
    (fulfill s id v).prefersReducedMotion = s.prefersReducedMotion := by
  unfold fulfill; split <;> rfl

@[simp] lemma fulfill_prevFocus (s : HostState V) (id : Nat) (v : Option V) :
    (fulfill s id v).prevFocus = s.prevFocus := by
  unfold fulfill; split <;> rfl

@[simp] lemma fulfill_restore (s : HostState V) (id : Nat) (v : Option V) :
    (fulfill s id v).restoreFocusOnClose = s.restoreFocusOnClose := by
  unfold fulfill; split <;> rfl

/-- A fulfilled future is never overwritten (Promise at-most-once). -/
lemma fulfill_already {s : HostState V} {id : Nat} {w : Option V} (v : Option V)
    (h : s.futures[id]? = some (some w)) : fulfill s id v = s := by
  unfold fulfill; rw [h]

/-- Fulfilling a pending future records exactly the given value. -/
lemma fulfill_pending_get {s : HostState V} {id : Nat} (v : Option V)
    (h : s.futures[id]? = some none) :
    (fulfill s id v).futures[id]? = some (some v) := by
  have hlt : id < s.futures.length := by
    rcases List.getElem?_eq_some_iff.mp h with ⟨hl, _⟩
    exact hl
  unfold fulfill
  rw [h]
  simp [List.getElem?_set_self hlt]

/-- Fulfilling touches no other slot. -/
lemma fulfill_get_ne {s : HostState V} {id j : Nat} (v : Option V) (hne : id ≠ j) :
    (fulfill s id v).futures[j]? = s.futures[j]? := by
  unfold fulfill; split <;> simp [List.getElem?_set_ne hne]

/-- Relates the handlers: `cancel` is `resolve` at the value `null`: the two source bodies are
textually identical up to that substitution. -/
lemma cancel_eq_resolve_none (s : HostState V) : cancel s = resolve s none := rfl

/-- The futures after `resolve` are those after the `resolvePromise` call:
the rest of the handler does not touch them. -/
lemma resolve_futures {s : HostState V} {id : Nat} (v : Option V)
    (hp : s.pending = some id) :
    (resolve s v).1.futures = (fulfill s id v).futures := by
  unfold resolve
  rw [hp]
  by_cases hm : s.prefersReducedMotion <;> simp [hm]

/-- Where `resolve` leaves `pending`: cleared under reduced motion, untouched
otherwise. -/
lemma resolve_pending {s : HostState V} {id : Nat} (v : Option V)
    (hp : s.pending = some id) :
    (resolve s v).1.pending =
      if s.prefersReducedMotion then none else some id := by
  unfold resolve
  rw [hp]
  by_cases hm : s.prefersReducedMotion <;> simp [hm, hp]

/-- Applying `resolve` to a state with no pending request is the identity. -/
lemma resolve_no_pending {s : HostState V} (v : Option V) (hp : s.pending = none) :
    resolve s v = (s, []) := by
  unfold resolve
  rw [hp]

/-- After a settlement on a state whose future slot `id` is already
fulfilled, every future is untouched. -/
lemma resolve_futures_already {s : HostState V} {id : Nat} {w : Option V}
    (v : Option V) (hp : s.pending = some id) (hf : s.futures[id]? = some (some w)) :
    (resolve s v).1.futures = s.futures := by
  rw [resolve_futures v hp, fulfill_already v hf]

end ModalSpec

/-- An extra lemma behind C1: once request `id` is settled, a further
`resolve` leaves every future untouched (either `pending` was cleared, or
the promise is already fulfilled and `resolvePromise` is a no-op). -/
lemma resolve_after_settle (s : HostState Nat) (id : Nat) (v w : Option Nat)
    (hp : s.pending = some id) (hf : s.futures[id]? = some none) :
    (resolve (resolve s v).1 w).1.futures = (resolve s v).1.futures := by
  have h2 : (resolve s v).1.futures[id]? = some (some v) := by
    rw [resolve_futures v hp]
    exact fulfill_pending_get v hf
  have hpend := resolve_pending v hp
  by_cases hm : s.prefersReducedMotion = true
  · simp only [hm, if_true] at hpend
    rw [resolve_no_pending w hpend]
  · simp only [hm, if_false, Bool.false_eq_true] at hpend
    rw [resolve_futures w hpend, fulfill_already w h2]

/-- C1: a request's future is fulfilled at most once, and any attempt to
resolve or cancel after the request is settled or cleared (including when no
`PendingRequest` exists at all) is a silent no-op: the handlers are total
(nothing is thrown), they change nothing when `pending` is `null`, and they
never overwrite a fulfilled future — so exactly one of resolve/cancel has an
observable effect per request. -/
theorem settle_at_most_once (s : HostState Nat) (id : Nat) (v : Option Nat)
    (hp : s.pending = some id) (hf : s.futures[id]? = some none) :
    (∀ s' : HostState Nat, ∀ w : Option Nat, s'.pending = none →
        resolve s' w = (s', []) ∧ cancel s' = (s', [])) ∧
    (resolve s v).1.futures[id]? = some (some v) ∧
    (∀ w, (resolve (resolve s v).1 w).1.futures = (resolve s v).1.futures) ∧
    (cancel (resolve s v).1).1.futures = (resolve s v).1.futures ∧
    (∀ w, (resolve (cancel s).1 w).1.futures = (cancel s).1.futures) := by
  refine ⟨?_, ?_, ?_, ?_, ?_⟩
  · intro s' w hp'
    exact ⟨resolve_no_pending w hp', by
      rw [cancel_eq_resolve_none]
      exact resolve_no_pending none hp'⟩
  · rw [resolve_futures v hp]
    exact fulfill_pending_get v hf
  · intro w
    exact resolve_after_settle s id v w hp hf
  · rw [cancel_eq_resolve_none]
    exact resolve_after_settle s id v none hp hf
  · intro w
    rw [cancel_eq_resolve_none]
    exact resolve_after_settle s id none w hp hf

/-- Witness for C1 at the concrete `sampleOpenState`. -/
theorem settle_at_most_once_witness :
    (resolve sampleOpenState (some 3)).1.futures[0]? = some (some (some 3)) ∧
    (cancel (resolve sampleOpenState (some 3)).1).1.futures =
      (resolve sampleOpenState (some 3)).1.futures :=
  ⟨(settle_at_most_once sampleOpenState 0 (some 3) rfl rfl).2.1,
   (settle_at_most_once sampleOpenState 0 (some 3) rfl rfl).2.2.2.1⟩

/-- C2: every cancellation trigger — an explicit `cancel()`, an Escape (or
legacy `"Esc"`) keydown, and a click whose target is exactly the overlay —
settles the open future with `null`, and the keydown and overlay-click
handlers funnel into the single `cancel` settlement path (a click on nested
content, where target ≠ currentTarget, does nothing). -/
theorem cancellation_triggers_null (s : HostState Nat) (id : Nat)
    (hp : s.pending = some id) (hf : s.futures[id]? = some none) :
    (cancel s).1.futures[id]? = some (some none) ∧
    handleKeydownHost s "Escape" = ((cancel s).1, Effect.preventDefault :: (cancel s).2) ∧
    handleKeydownHost s "Esc" = ((cancel s).1, Effect.preventDefault :: (cancel s).2) ∧
    handleOverlayClick s true = cancel s ∧
    handleOverlayClick s false = (s, []) := by
  refine ⟨?_, rfl, rfl, rfl, rfl⟩
  rw [cancel_eq_resolve_none, resolve_futures none hp]
  exact fulfill_pending_get none hf

/-- Witness for C2 at the concrete `sampleOpenState`. -/
theorem cancellation_triggers_null_witness :
    (cancel sampleOpenState).1.futures[0]? = some (some none) ∧
    handleOverlayClick sampleOpenState true = cancel sampleOpenState :=
  ⟨(cancellation_triggers_null sampleOpenState 0 rfl rfl).1,
   (cancellation_triggers_null sampleOpenState 0 rfl rfl).2.2.2.1⟩

/-- C10: the host forwards the value passed to `resolve` into the future
unchanged (no validation, no transformation); `resolve(null)` is literally
the same step as `cancel`, so the awaiting caller — who, like
`ModalFormPage.handleOpen`, only sees the fulfilment value — cannot
distinguish a content's `resolve(null)` from a cancellation. -/
theorem resolve_forwards_value_unchanged (s : HostState Nat) (id : Nat) (v : Option Nat)
    (hp : s.pending = some id) (hf : s.futures[id]? = some none) :
    (resolve s v).1.futures[id]? = some (some v) ∧
    resolve s none = cancel s ∧
    (cancel s).1.futures[id]? = some (some none) ∧
    FormSpec.handleOpen none = none := by
  refine ⟨?_, (cancel_eq_resolve_none s).symm, ?_, rfl⟩
  · rw [resolve_futures v hp]
    exact fulfill_pending_get v hf
  · rw [cancel_eq_resolve_none, resolve_futures none hp]
    exact fulfill_pending_get none hf

/-- Witness for C10 at the concrete `sampleOpenState`. -/
theorem resolve_forwards_value_unchanged_witness :
    (resolve sampleOpenState (some 42)).1.futures[0]? = some (some (some 42)) ∧
    resolve sampleOpenState none = cancel sampleOpenState :=
  ⟨(resolve_forwards_value_unchanged sampleOpenState 0 (some 42) rfl rfl).1,
   (resolve_forwards_value_unchanged sampleOpenState 0 (some 42) rfl rfl).2.1⟩

/-- C6: calling `openWithRender` while no host is registered returns the
rejected future carrying the "ModalProvider is not mounted" error — the
function is total, so nothing is thrown synchronously into the caller — and
the registration slot, the only process-wide state, is left untouched (it is
also untouched when a host is registered). -/
theorem openWithRender_host_not_mounted (a : Option Nat) :
    openWithRender (V := Nat) none a =
      (none, Except.error "ModalProvider is not mounted") ∧
    (∀ s : HostState Nat, (openWithRender (some s) a).1 = some s) :=
  ⟨rfl, fun _ => rfl⟩

/-- C8: a wheel or touch-move event captured by the overlay is suppressed
(`preventDefault`) exactly when its target lies outside the scrollable
content region — given that this region is nested inside the dialog
container, as it is in the rendered tree — and events targeting nodes inside
the region are left unsuppressed; the two capture handlers coincide. -/
theorem scroll_containment_iff (t : GestureTarget)
    (hnest : isInsideScrollContent t = true → isInsideDialog t = true) :
    (handleWheelCapture t = true ↔ isInsideScrollContent t = false) ∧
    handleTouchMoveCapture t = handleWheelCapture t := by
  refine ⟨?_, rfl⟩
  rcases t with ⟨n, d, sc⟩
  cases n <;> cases d <;> cases sc <;>
    simp_all [handleWheelCapture, isInsideDialog, isInsideScrollContent]

/-- Witness for C8: wheel on the dialog's non-scrollable padding is
suppressed. -/
theorem scroll_containment_iff_witness :
    (handleWheelCapture { isNode := true, insideDialog := true, insideScroll := false } = true ↔
      isInsideScrollContent { isNode := true, insideDialog := true, insideScroll := false } = false) ∧
    handleTouchMoveCapture { isNode := true, insideDialog := true, insideScroll := false } =
      handleWheelCapture { isNode := true, insideDialog := true, insideScroll := false } :=
  scroll_containment_iff { isNode := true, insideDialog := true, insideScroll := false }
    (by decide)

/-- C9: submitting the form with an empty email leaves the open future
pending (nothing is resolved), shows the inline required-field error and
sends focus back to the input; submitting `a@b.co` then resolves with
exactly `{ email := "a@b.co" }`, which the host forwards verbatim into the
future. -/
theorem form_scenario_empty_then_valid :
    FormSpec.handleSubmit "" =
      { error := some "이메일을 입력해 주세요.", focusInput := true, resolved := none } ∧
    FormSpec.handleSubmit "a@b.co" =
      { error := none, focusInput := false,
        resolved := some { email := "a@b.co" } } ∧
    (resolve formHostState (some { email := "a@b.co" })).1.futures[0]? =
      some (some (some ({ email := "a@b.co" } : FormSpec.FormResult))) := by
  decide

namespace ModalSpec

variable {V : Type}

/-- Where `resolve` leaves the visual state. -/
lemma resolve_visual {s : HostState V} {id : Nat} (v : Option V)
    (hp : s.pending = some id) :
    (resolve s v).1.visualState =
      if s.prefersReducedMotion then VisualState.unmounted else VisualState.closed := by
  unfold resolve
  rw [hp]
  by_cases hm : s.prefersReducedMotion <;> simp [hm]

/-- Where `resolve` leaves the mounted flag. -/
lemma resolve_isMounted {s : HostState V} {id : Nat} (v : Option V)
    (hp : s.pending = some id) :
    (resolve s v).1.isMounted =
      if s.prefersReducedMotion then false else s.isMounted := by
  unfold resolve
  rw [hp]
  by_cases hm : s.prefersReducedMotion <;> simp [hm]

/-- The settlement trace, explicitly. -/
lemma resolve_trace {s : HostState V} {id : Nat} (v : Option V)
    (hp : s.pending = some id) :
    (resolve s v).2 =
      if s.prefersReducedMotion then
        [Effect.callResolvePromise id v, Effect.setVisual VisualState.closed,
         Effect.setMounted false, Effect.setVisual VisualState.unmounted,
         Effect.clearPending, Effect.scheduleRestoreMicrotask]
      else
        [Effect.callResolvePromise id v, Effect.setVisual VisualState.closed] := by
  unfold resolve
  rw [hp]
  by_cases hm : s.prefersReducedMotion <;> simp [hm]

/-- An animation-end event not targeting the overlay itself is ignored. -/
lemma animationEnd_bubbled (s : HostState V) :
    handleOverlayAnimationEnd s false = (s, []) := rfl

/-- An overlay animation-end outside the `closed` phase is ignored. -/
lemma animationEnd_not_closed {s : HostState V}
    (h : s.visualState ≠ VisualState.closed) :
    handleOverlayAnimationEnd s true = (s, []) := by
  unfold handleOverlayAnimationEnd
  simp [h]

/-- The overlay's own animation-end during `closed` runs the unmount path. -/
lemma animationEnd_closed_state {s : HostState V}
    (h : s.visualState = VisualState.closed) :
    (handleOverlayAnimationEnd s true).1 =
      { s with isMounted := false, visualState := VisualState.unmounted,
               pending := none } := by
  unfold handleOverlayAnimationEnd
  simp only [h, Bool.not_true, Bool.false_eq_true, if_false, if_true, reduceIte]
  split <;> rfl

/-- The trace of the overlay's animation-end during `closed`. -/
lemma animationEnd_closed_trace {s : HostState V}
    (h : s.visualState = VisualState.closed) :
    (handleOverlayAnimationEnd s true).2 =
      if s.restoreFocusOnClose then
        [Effect.setMounted false, Effect.setVisual VisualState.unmounted,
         Effect.clearPending, Effect.scheduleRestoreMicrotask]
      else
        [Effect.setMounted false, Effect.setVisual VisualState.unmounted,
         Effect.clearPending] := by
  unfold handleOverlayAnimationEnd
  by_cases hr : s.restoreFocusOnClose <;> simp [h, hr]

end ModalSpec

/-- C4: when the reduced-motion preference is true at settlement time, the
unmount path (VisualState `unmounted`, `PendingRequest` cleared, layer
unmounted) runs synchronously within the settlement step itself; when it is
false, settlement only reaches `closed`, and the unmount path runs exactly
on an animation-completion event whose target is the overlay element itself
(bubbled events and events outside the `closed` phase are ignored). -/
theorem reduced_motion_unmount (s : HostState Nat) (id : Nat) (v : Option Nat)
    (hp : s.pending = some id) :
    (s.prefersReducedMotion = true →
        (resolve s v).1.visualState = VisualState.unmounted ∧
        (resolve s v).1.pending = none ∧
        (resolve s v).1.isMounted = false ∧
        (cancel s).1.visualState = VisualState.unmounted ∧
        (cancel s).1.pending = none) ∧
    (s.prefersReducedMotion = false →
        (resolve s v).1.visualState = VisualState.closed ∧
        (resolve s v).1.pending = some id ∧
        (resolve s v).1.isMounted = s.isMounted) ∧
    handleOverlayAnimationEnd s false = (s, []) ∧
    (s.visualState ≠ VisualState.closed →
        handleOverlayAnimationEnd s true = (s, [])) ∧
    (s.visualState = VisualState.closed →
        (handleOverlayAnimationEnd s true).1.visualState = VisualState.unmounted ∧
        (handleOverlayAnimationEnd s true).1.pending = none ∧
        (handleOverlayAnimationEnd s true).1.isMounted = false) := by
  refine ⟨?_, ?_, animationEnd_bubbled s, fun h => animationEnd_not_closed h, ?_⟩
  · intro hm
    rw [resolve_visual v hp, resolve_pending v hp, resolve_isMounted v hp,
        cancel_eq_resolve_none, resolve_visual none hp, resolve_pending none hp]
    simp [hm]
  · intro hm
    rw [resolve_visual v hp, resolve_pending v hp, resolve_isMounted v hp]
    simp [hm]
  · intro h
    rw [animationEnd_closed_state h]
    exact ⟨rfl, rfl, rfl⟩

/-- Witness for C4 at `sampleOpenState` (reduced motion off). -/
theorem reduced_motion_unmount_witness :
    (resolve sampleOpenState (some 5)).1.visualState = VisualState.closed ∧
    handleOverlayAnimationEnd sampleOpenState false = (sampleOpenState, []) :=
  ⟨((reduced_motion_unmount sampleOpenState 0 (some 5) rfl).2.1 rfl).1,
   (reduced_motion_unmount sampleOpenState 0 (some 5) rfl).2.2.1⟩

/-- C5: for every settlement the future is fulfilled strictly before the
unmount path begins — the `resolvePromise` call heads the settlement trace
and the animation-end unmount path never fulfils anything; the focus move
back to the previous target is never performed synchronously inside an event
handler (no `focusMove` effect occurs there), only scheduled as a microtask;
whenever a step schedules that microtask it simultaneously clears the
request and unmounts, and no later settlement or animation-end step can
schedule it again — so it happens at most once per request; and running the
scheduled microtask performs the focus move and clears the
owed-restoration flag. -/
theorem settlement_ordering_and_restore (s : HostState Nat) (id : Nat) (v : Option Nat)
    (hp : s.pending = some id) :
    (∃ t, (resolve s v).2 = Effect.callResolvePromise id v :: t) ∧
    (∀ tgt, Effect.focusMove tgt ∉ (resolve s v).2) ∧
    (∀ b tgt, Effect.focusMove tgt ∉ (handleOverlayAnimationEnd s b).2) ∧
    (∀ b j w, Effect.callResolvePromise j w ∉ (handleOverlayAnimationEnd s b).2) ∧
    (s.prefersReducedMotion = false →
        Effect.scheduleRestoreMicrotask ∉ (resolve s v).2) ∧
    (Effect.scheduleRestoreMicrotask ∈ (resolve s v).2 →
        (resolve s v).1.pending = none ∧
        (resolve s v).1.visualState = VisualState.unmounted) ∧
    (∀ b, Effect.scheduleRestoreMicrotask ∈ (handleOverlayAnimationEnd s b).2 →
        (handleOverlayAnimationEnd s b).1.pending = none ∧
        (handleOverlayAnimationEnd s b).1.visualState = VisualState.unmounted) ∧
    (∀ s' : HostState Nat, s'.pending = none →
        (∀ w, Effect.scheduleRestoreMicrotask ∉ (resolve s' w).2) ∧
        Effect.scheduleRestoreMicrotask ∉ (cancel s').2) ∧
    (∀ s' : HostState Nat, s'.visualState ≠ VisualState.closed → ∀ b,
        Effect.scheduleRestoreMicrotask ∉ (handleOverlayAnimationEnd s' b).2) ∧
    (∀ s' : HostState Nat, runRestoreMicrotask s' =
        ({ s' with restoreFocusOnClose := false }, [Effect.focusMove s'.prevFocus])) := by
  refine ⟨?_, ?_, ?_, ?_, ?_, ?_, ?_, ?_, ?_, fun _ => rfl⟩
  · rw [resolve_trace v hp]
    by_cases hm : s.prefersReducedMotion = true
    · rw [if_pos hm]; exact ⟨_, rfl⟩
    · rw [if_neg hm]; exact ⟨_, rfl⟩
  · intro tgt
    rw [resolve_trace v hp]
    by_cases hm : s.prefersReducedMotion = true
    · rw [if_pos hm]; simp
    · rw [if_neg hm]; simp
  · intro b tgt
    cases b
    · rw [animationEnd_bubbled]; simp
    · by_cases hv : s.visualState = VisualState.closed
      · rw [animationEnd_closed_trace hv]
        by_cases hr : s.restoreFocusOnClose = true
        · rw [if_pos hr]; simp
        · rw [if_neg hr]; simp
      · rw [animationEnd_not_closed hv]; simp
  · intro b j w
    cases b
    · rw [animationEnd_bubbled]; simp
    · by_cases hv : s.visualState = VisualState.closed
      · rw [animationEnd_closed_trace hv]
        by_cases hr : s.restoreFocusOnClose = true
        · rw [if_pos hr]; simp
        · rw [if_neg hr]; simp
      · rw [animationEnd_not_closed hv]; simp
  · intro hm
    rw [resolve_trace v hp]
    simp [hm]
  · intro hmem
    by_cases hm : s.prefersReducedMotion = true
    · rw [resolve_pending v hp, resolve_visual v hp]
      simp [hm]
    · rw [resolve_trace v hp, if_neg hm] at hmem
      exact absurd hmem (by simp)
  · intro b hmem
    cases b
    · rw [animationEnd_bubbled] at hmem
      exact absurd hmem (by simp)
    · by_cases hv : s.visualState = VisualState.closed
      · rw [animationEnd_closed_state hv]
        exact ⟨rfl, rfl⟩
      · rw [animationEnd_not_closed hv] at hmem
        exact absurd hmem (by simp)
  · intro s' hp'
    refine ⟨fun w => ?_, ?_⟩
    · rw [resolve_no_pending w hp']; simp
    · rw [cancel_eq_resolve_none, resolve_no_pending none hp']; simp
  · intro s' hv b
    cases b
    · rw [animationEnd_bubbled]; simp
    · rw [animationEnd_not_closed hv]; simp

/-- Witness for C5 at `sampleReducedState`: the reduced-motion settlement
schedules the restoration microtask and is already unmounted with the
request cleared; running the microtask clears the owed flag. -/
theorem settlement_ordering_and_restore_witness :
    ((resolve sampleReducedState (some 3)).1.pending = none ∧
     (resolve sampleReducedState (some 3)).1.visualState = VisualState.unmounted) ∧
    runRestoreMicrotask sampleReducedState =
      ({ sampleReducedState with restoreFocusOnClose := false },
       [Effect.focusMove (some 7)]) := by
  obtain ⟨h1, h2, h3, h4, h5, h6, h7, h8, h9, h10⟩ :=
    settlement_ordering_and_restore sampleReducedState 0 (some 3) rfl
  exact ⟨h6 (by decide), h10 sampleReducedState⟩

namespace ModalSpec

variable {V : Type}

/-- Settlement via `resolve` preserves the pending/unmounted invariant. -/
lemma resolve_pendingInv {s : HostState V} (v : Option V) (hinv : pendingInv s) :
    pendingInv (resolve s v).1 := by
  cases hp : s.pending with
  | none => rw [resolve_no_pending v hp]; exact hinv
  | some id =>
    unfold pendingInv
    rw [resolve_pending v hp, resolve_visual v hp]
    by_cases hm : s.prefersReducedMotion = true <;> simp [hm]

/-- Every event handler preserves the pending/unmounted invariant. -/
lemma step_pendingInv {s : HostState V} {e : Event V}
    (hinv : pendingInv s) (_ha : allowed s e) : pendingInv (step s e).1 := by
  cases e with
  | openReq a =>
    show pendingInv (openModal s a).1
    unfold pendingInv openModal
    simp
  | resolveCall v => exact resolve_pendingInv v hinv
  | cancelCall =>
    show pendingInv (cancel s).1
    rw [cancel_eq_resolve_none]
    exact resolve_pendingInv none hinv
  | keydown k =>
    show pendingInv (handleKeydownHost s k).1
    unfold handleKeydownHost
    split
    · show pendingInv (cancel s).1
      rw [cancel_eq_resolve_none]
      exact resolve_pendingInv none hinv
    · exact hinv
  | overlayClick b =>
    show pendingInv (handleOverlayClick s b).1
    unfold handleOverlayClick
    split
    · rw [cancel_eq_resolve_none]
      exact resolve_pendingInv none hinv
    · exact hinv
  | animationEnd b =>
    cases b
    · show pendingInv (handleOverlayAnimationEnd s false).1
      rw [animationEnd_bubbled]
      exact hinv
    · by_cases hv : s.visualState = VisualState.closed
      · show pendingInv (handleOverlayAnimationEnd s true).1
        rw [animationEnd_closed_state hv]
        unfold pendingInv
        simp
      · show pendingInv (handleOverlayAnimationEnd s true).1
        rw [animationEnd_not_closed hv]
        exact hinv
  | restoreMicrotask => exact hinv
  | motionPrefChange b => exact hinv

/-- All reachable states satisfy the pending/unmounted invariant. -/
lemma reachable_pendingInv {s : HostState V} (h : Reachable s) : pendingInv s := by
  induction h with
  | init => unfold pendingInv initState; simp
  | next e _hr ha ih => exact step_pendingInv ih ha

lemma edge_refl (a : VisualState) : lifecycleEdge a a := Or.inl rfl

lemma edge_unmounted_opened :
    lifecycleEdge VisualState.unmounted VisualState.opened :=
  Or.inr (Or.inl ⟨rfl, rfl⟩)

lemma edge_closed_unmounted :
    lifecycleEdge VisualState.closed VisualState.unmounted :=
  Or.inr (Or.inr (Or.inr ⟨rfl, rfl⟩))

lemma edge_to_closed {a : VisualState} (h : a ≠ VisualState.unmounted) :
    lifecycleEdge a VisualState.closed := by
  cases a with
  | opened => exact Or.inr (Or.inr (Or.inl ⟨rfl, rfl⟩))
  | closed => exact Or.inl rfl
  | unmounted => exact absurd rfl h

/-- Effect `preventDefault` contributes no visual-state change. -/
lemma visited_preventDefault (s : HostState V) (t : List (Effect V)) :
    visitedVisuals s (Effect.preventDefault :: t) = visitedVisuals s t := by
  unfold visitedVisuals
  simp [List.filterMap_cons]

/-- The visual states visited by one settlement follow the lifecycle path
and end at the settled state's visual state. -/
lemma resolve_visited {s : HostState V} (v : Option V) (hinv : pendingInv s) :
    List.Chain' lifecycleEdge (visitedVisuals s (resolve s v).2) ∧
    (visitedVisuals s (resolve s v).2).getLast? = some (resolve s v).1.visualState := by
  cases hp : s.pending with
  | none =>
    rw [resolve_no_pending v hp]
    unfold visitedVisuals
    simp
  | some id =>
    have hv : s.visualState ≠ VisualState.unmounted := by
      intro h
      have h2 := hinv.mpr h
      rw [h2] at hp
      exact Option.noConfusion hp
    rw [resolve_trace v hp, resolve_visual v hp]
    by_cases hm : s.prefersReducedMotion = true
    · rw [if_pos hm, if_pos hm]
      unfold visitedVisuals
      refine ⟨?_, by simp⟩
      simp only [List.filterMap_cons, List.filterMap_nil]
      exact List.chain'_cons.mpr ⟨edge_to_closed hv,
        List.chain'_cons.mpr ⟨edge_closed_unmounted, List.chain'_singleton _⟩⟩
    · rw [if_neg hm, if_neg hm]
      unfold visitedVisuals
      refine ⟨?_, by simp⟩
      simp only [List.filterMap_cons, List.filterMap_nil]
      exact List.chain'_cons.mpr ⟨edge_to_closed hv, List.chain'_singleton _⟩

end ModalSpec

/-- C7: in single-flight runs (the `allowed` guard: `open` only fires while
no request is pending), every handler moves the visual state only along the
directed path `unmounted → open → closed → unmounted`: the ordered visual
states each step passes through (including the intermediate `closed` that a
reduced-motion settlement sets before unmounting in the same turn) form a
chain of lifecycle edges ending at the step's final visual state — in
particular `open` never jumps straight to `unmounted`. -/
theorem visual_lifecycle_path (s : HostState Nat) (e : Event Nat)
    (hs : Reachable s) (ha : allowed s e) :
    List.Chain' lifecycleEdge (visitedVisuals s (step s e).2) ∧
    (visitedVisuals s (step s e).2).getLast? = some (step s e).1.visualState := by
  have hinv := reachable_pendingInv hs
  cases e with
  | openReq a =>
    have hv : s.visualState = VisualState.unmounted := hinv.mp ha
    show List.Chain' lifecycleEdge (visitedVisuals s (openModal s a).2) ∧
      (visitedVisuals s (openModal s a).2).getLast? = some (openModal s a).1.visualState
    unfold openModal visitedVisuals
    simp only [List.filterMap_cons, List.filterMap_nil, hv]
    exact ⟨List.chain'_cons.mpr ⟨edge_unmounted_opened, List.chain'_singleton _⟩, by simp⟩
  | resolveCall v => exact resolve_visited v hinv
  | cancelCall =>
    show List.Chain' lifecycleEdge (visitedVisuals s (cancel s).2) ∧
      (visitedVisuals s (cancel s).2).getLast? = some (cancel s).1.visualState
    rw [cancel_eq_resolve_none]
    exact resolve_visited none hinv
  | keydown k =>
    show List.Chain' lifecycleEdge (visitedVisuals s (handleKeydownHost s k).2) ∧
      (visitedVisuals s (handleKeydownHost s k).2).getLast? =
        some (handleKeydownHost s k).1.visualState
    unfold handleKeydownHost
    split
    · show List.Chain' lifecycleEdge
          (visitedVisuals s (Effect.preventDefault :: (cancel s).2)) ∧
        (visitedVisuals s (Effect.preventDefault :: (cancel s).2)).getLast? =
          some (cancel s).1.visualState
      rw [visited_preventDefault, cancel_eq_resolve_none]
      exact resolve_visited none hinv
    · unfold visitedVisuals
      simp
  | overlayClick b =>
    show List.Chain' lifecycleEdge (visitedVisuals s (handleOverlayClick s b).2) ∧
      (visitedVisuals s (handleOverlayClick s b).2).getLast? =
        some (handleOverlayClick s b).1.visualState
    unfold handleOverlayClick
    split
    · rw [cancel_eq_resolve_none]
      exact resolve_visited none hinv
    · unfold visitedVisuals
      simp
  | animationEnd b =>
    cases b
    · show List.Chain' lifecycleEdge
          (visitedVisuals s (handleOverlayAnimationEnd s false).2) ∧
        (visitedVisuals s (handleOverlayAnimationEnd s false).2).getLast? =
          some (handleOverlayAnimationEnd s false).1.visualState
      rw [animationEnd_bubbled]
      unfold visitedVisuals
      simp
    · show List.Chain' lifecycleEdge
          (visitedVisuals s (handleOverlayAnimationEnd s true).2) ∧
        (visitedVisuals s (handleOverlayAnimationEnd s true).2).getLast? =
          some (handleOverlayAnimationEnd s true).1.visualState
      by_cases hv : s.visualState = VisualState.closed
      · rw [animationEnd_closed_trace hv, animationEnd_closed_state hv]
        by_cases hr : s.restoreFocusOnClose = true
        · rw [if_pos hr]
          unfold visitedVisuals
          simp only [List.filterMap_cons, List.filterMap_nil, hv]
          exact ⟨List.chain'_cons.mpr ⟨edge_closed_unmounted, List.chain'_singleton _⟩,
            by simp⟩
        · rw [if_neg hr]
          unfold visitedVisuals
          simp only [List.filterMap_cons, List.filterMap_nil, hv]
          exact ⟨List.chain'_cons.mpr ⟨edge_closed_unmounted, List.chain'_singleton _⟩,
            by simp⟩
      · rw [animationEnd_not_closed hv]
        unfold visitedVisuals
        simp
  | restoreMicrotask =>
    show List.Chain' lifecycleEdge (visitedVisuals s (runRestoreMicrotask s).2) ∧
      (visitedVisuals s (runRestoreMicrotask s).2).getLast? =
        some (runRestoreMicrotask s).1.visualState
    unfold runRestoreMicrotask visitedVisuals
    simp
  | motionPrefChange b =>
    show List.Chain' lifecycleEdge (visitedVisuals s []) ∧
      (visitedVisuals s []).getLast? = some s.visualState
    unfold visitedVisuals
    simp

/-- Witness for C7: opening from the initial state visits
`unmounted → open`. -/
theorem visual_lifecycle_path_witness :
    List.Chain' lifecycleEdge
      (visitedVisuals (initState Nat) (step (initState Nat) (Event.openReq none)).2) ∧
    (visitedVisuals (initState Nat) (step (initState Nat) (Event.openReq none)).2).getLast? =
      some (step (initState Nat) (Event.openReq none)).1.visualState :=
  visual_lifecycle_path (initState Nat) (Event.openReq none) Reachable.init rfl

/-- C3 counterexample: the trap's filter only excludes tab order exactly
`-1` (`el.tabIndex !== -1` and selector `:not([tabindex="-1"])`), so the
`tabindex="-2"` button — an element with negative tab order — is included in
the recomputed tabbable set and even serves as a wrap target, contradicting
the claim that elements with negative tab order are excluded. -/
theorem focus_trap_negative_tabindex_included :
    tabIndexProp negTabButton < 0 ∧
    isTabbable negTabButton = true ∧
    tabbables [negTabButton] = [0] ∧
    handleTab [negTabButton] false (ActiveTarget.element 0) =
      { prevented := true, focusTo := some 0 } := by decide

/-- C3 (amended: the exclusion is of elements marked not focusable, hidden,
or with tab order exactly `-1`; other negative tab orders are not excluded):
on every Tab keydown the tabbable set is recomputed from the current
contents — the handler's outcome is a function of the current set alone;
every member passes the selector and is neither `aria-hidden`, nor `hidden`,
nor of tab order `-1`; an empty set suppresses the default focus move
entirely; forward Tab from the last element wraps to the first, and
Shift+Tab from the first element or from the container wraps to the last. -/
theorem focus_trap_tab (container : List DomElement) (shiftKey : Bool)
    (active : ActiveTarget) :
    (∀ i ∈ tabbables container, ∃ el, container[i]? = some el ∧
        matchesSelector el = true ∧ el.ariaHidden = false ∧ el.hidden = false ∧
        tabIndexProp el ≠ -1) ∧
    (tabbables container = [] →
        handleTab container shiftKey active = { prevented := true, focusTo := none }) ∧
    (∀ f l, (tabbables container).head? = some f →
        (tabbables container).getLast? = some l →
        (shiftKey = false → active = ActiveTarget.element l →
            handleTab container shiftKey active =
              { prevented := true, focusTo := some f }) ∧
        (shiftKey = true →
            (active = ActiveTarget.element f ∨ active = ActiveTarget.container) →
            handleTab container shiftKey active =
              { prevented := true, focusTo := some l })) ∧
    (∀ container2, tabbables container = tabbables container2 →
        handleTab container shiftKey active = handleTab container2 shiftKey active) := by
  refine ⟨?_, ?_, ?_, ?_⟩
  · intro i hi
    unfold tabbables at hi
    rw [List.mem_filter] at hi
    obtain ⟨_hrange, hcond⟩ := hi
    cases hel : container[i]? with
    | none =>
      rw [hel] at hcond
      cases hcond
    | some el =>
      rw [hel] at hcond
      have hc : isTabbable el = true := hcond
      simp only [isTabbable, passesFilter, Bool.and_eq_true, Bool.not_eq_true',
        bne_iff_ne, ne_eq] at hc
      exact ⟨el, rfl, hc.1, hc.2.1.1, hc.2.2, hc.2.1.2⟩
  · intro h
    unfold handleTab
    rw [h]
  · intro f l hh hl
    cases htb : tabbables container with
    | nil =>
      rw [htb] at hh
      cases hh
    | cons f0 rest =>
      rw [htb] at hh hl
      have hf : f0 = f := by simpa using hh
      subst hf
      rw [List.getLast?_eq_getLast (f0 :: rest) (List.cons_ne_nil f0 rest)] at hl
      have hl2 : (f0 :: rest).getLast (List.cons_ne_nil f0 rest) = l :=
        Option.some.inj hl
      constructor
      · intro hsk hact
        subst hsk
        subst hact
        unfold handleTab
        rw [htb]
        simp [hl2]
      · intro hsk hact
        subst hsk
        unfold handleTab
        rw [htb]
        rcases hact with h | h <;> subst h <;> simp [hl2]
  · intro c2 he
    unfold handleTab
    rw [he]

/-- Witness for C3 (amended): in `sampleDialog`, forward Tab from the last
tabbable wraps to the first, and an empty container suppresses the move. -/
theorem focus_trap_tab_witness :
    handleTab sampleDialog false (ActiveTarget.element 1) =
      { prevented := true, focusTo := some 0 } ∧
    handleTab ([] : List DomElement) false ActiveTarget.outside =
      { prevented := true, focusTo := none } :=
  ⟨((focus_trap_tab sampleDialog false (ActiveTarget.element 1)).2.2.1 0 1
      (by decide) (by decide)).1 rfl rfl,
   (focus_trap_tab ([] : List DomElement) false ActiveTarget.outside).2.1 (by decide)⟩
